import Mathlib

/-!
Verification development for a small Redis-like server
(`app/resp.py`, `app/server.py`).

Bytes are modelled as `Char` (all wire traffic relevant here is ASCII;
`bytes.decode()` is then the identity).  Python `int` values are `Int`,
list values are Lean lists, the keyspace `dict` is an association list
with Python-dict update semantics.  Fallible code returns `PyRes` /
dedicated outcome types; uncaught Python exceptions (AssertionError,
IndexError, AttributeError) are explicit `PyErr` outcomes.
-/

namespace RedisModel

/-- Python exceptions that escape the code paths modelled here
(`assert`, out-of-bounds indexing, missing module attribute). -/
inductive PyErr
  | assertionFailed (site : String)
  | attributeError (name : String)
  | indexError
  deriving DecidableEq

/-- The six ASCII whitespace characters stripped by Python `str.strip()`
/ `bytes.strip()`. -/
def pyWs (c : Char) : Bool :=
  c = ' ' || c = '\t' || c = '\n' || c = '\r' || c = '\x0b' || c = '\x0c'

/-- Python `.strip()` on a byte string: drop leading and trailing
whitespace. -/
def pyStrip (l : List Char) : List Char :=
  ((l.dropWhile pyWs).reverse.dropWhile pyWs).reverse

/-- Python `reader.readline()` splitting: the first component is the
bytes up to and including the first `'\n'` (or everything, at EOF
without a newline); the second is the remaining input. -/
def splitLine : List Char → List Char × List Char
  | [] => ([], [])
  | c :: cs =>
    if c = '\n' then ([c], cs)
    else
      let p := splitLine cs
      (c :: p.1, p.2)

/-- Value of one ASCII decimal digit, `none` on any other character. -/
def digitVal (c : Char) : Option Nat :=
  if c.isDigit then some (c.toNat - 48) else none

/-- Accumulating decimal evaluation of a digit string. -/
def digitsValAux : List Char → Nat → Option Nat
  | [], acc => some acc
  | c :: cs, acc =>
    match digitVal c with
    | none => none
    | some d => digitsValAux cs (10 * acc + d)

/-- Value of a non-empty all-digit string, else `none`. -/
def digitsVal : List Char → Option Nat
  | [] => none
  | c :: cs => digitsValAux (c :: cs) 0

/-- Python `int(<ascii bytes>)` on an already-stripped string: optional
sign followed by at least one decimal digit.  (Underscore digit
grouping, which never occurs on the inputs considered here, is not
modelled.) -/
def pyInt (l : List Char) : Option Int :=
  match l with
  | [] => none
  | c :: cs =>
    if c = '-' then (digitsVal cs).map (fun n => -(n : Int))
    else if c = '+' then (digitsVal cs).map (fun n => (n : Int))
    else (digitsVal (c :: cs)).map (fun n => (n : Int))

/-- Python `int(s)` for a string operand: `int` strips whitespace
before parsing. -/
def pyIntStr (s : String) : Option Int :=
  pyInt (pyStrip s.data)

/-- Fuelled decimal rendering, mirroring core `Nat.toDigitsCore`
(which implements Python's `f"{n}"` decimal formatting for `Nat`). -/
def natDigitsCore : Nat → Nat → List Char → List Char
  | 0, _, ds => ds
  | fuel + 1, n, ds =>
    let d := Nat.digitChar (n % 10)
    if n / 10 = 0 then d :: ds else natDigitsCore fuel (n / 10) (d :: ds)

/-- Decimal rendering of a `Nat` (the digits of `f"{n}"`). -/
def natDigits (n : Nat) : List Char :=
  natDigitsCore (n + 1) n []

/-- Structural-recursion form of the decimal rendering (most
significant digit first); proved equal to `natDigits` below. -/
def natDigitsRec (n : Nat) : List Char :=
  if _h : n < 10 then [Nat.digitChar n]
  else natDigitsRec (n / 10) ++ [Nat.digitChar (n % 10)]
decreasing_by exact Nat.div_lt_self (by omega) (by omega)

/-- Python `str.upper()` (ASCII range): uppercase each character. -/
def strUpper (s : String) : String :=
  String.mk (s.data.map Char.toUpper)

/-- A parsed client command: uppercased name plus arguments
(`resp.Command`). -/
structure Command where
  name : String
  args : List String
  deriving DecidableEq

/-- Result of reading the `count` bulk-string elements of a command
frame. -/
inductive ElemsRes
  | ok (raws : List (List Char)) (rest : List Char)
  | protoErr (msg : String)
  | connReset
  | crash (e : PyErr)
  deriving DecidableEq

/-- The element loop of `Command.parse`: for each element read `$`, a
length line, then a payload *line* which is stripped and checked
(via `assert`) against the declared length. -/
def parseElems : Nat → List Char → List (List Char) → ElemsRes
  | 0, rest, acc => .ok acc.reverse rest
  | n + 1, input, acc =>
    match input with
    | [] => .connReset
    | c :: rest =>
      if c = '$' then
        let p := splitLine rest
        if p.1 = [] then .connReset
        else
          match pyInt (pyStrip p.1) with
          | none => .protoErr "Protocol error: expected integer"
          | some len =>
            let q := splitLine p.2
            if q.1 = [] then .connReset
            else
              let arg := pyStrip q.1
              if (arg.length : Int) = len then parseElems n q.2 (arg :: acc)
              else .crash (.assertionFailed "Command.parse length")
      else .protoErr "Expected bulk string for element"

/-- Outcome of `Command.parse`: a command plus unread input, a
`ValueError` (protocol error), a `ConnectionResetError`, or an
uncaught exception. -/
inductive ParseOutcome
  | ok (cmd : Command) (rest : List Char)
  | protoErr (msg : String)
  | connReset
  | crash (e : PyErr)
  deriving DecidableEq

/-- `resp.Command.parse`: read `*`, a count line, then `count`
elements; uppercase the first element as the command name.  An empty
command array reaches `args[0]` out of bounds. -/
def parseCommand (input : List Char) : ParseOutcome :=
  match input with
  | [] => .connReset
  | c :: rest =>
    if c = '*' then
      let p := splitLine rest
      if p.1 = [] then .connReset
      else
        match pyInt (pyStrip p.1) with
        | none => .protoErr "Protocol error: expected integer"
        | some n =>
          match parseElems n.toNat p.2 [] with
          | .ok raws rest2 =>
            let args := raws.map String.mk
            match args with
            | [] => .crash .indexError
            | a :: as => .ok ⟨strUpper a, as⟩ rest2
          | .protoErr m => .protoErr m
          | .connReset => .connReset
          | .crash e => .crash e
    else .protoErr "Expected array for command"

/-- `resp.BulkString.encode` for a present value:
`$<len>\r\n<payload>\r\n`. -/
def encodeBulk (s : String) : List Char :=
  '$' :: (natDigits s.length ++ '\r' :: '\n' :: (s.data ++ ['\r', '\n']))

/-- `resp.Array.encode` restricted to string elements (each element is
encoded as a bulk string): `*<n>\r\n` followed by the elements. -/
def encodeArray (xs : List String) : List Char :=
  '*' :: (natDigits xs.length ++ '\r' :: '\n' :: (xs.map encodeBulk).flatten)

/-! ## Stream values (`resp.Stream`, `resp.StreamID`, `resp.StreamValue`) -/

/-- A stream entry: a resolved `StreamID` `(milliseconds_time,
sequence_number)` and the field dictionary (insertion-ordered pairs). -/
structure StreamEntry where
  id : Int × Int
  fields : List (String × String)
  deriving DecidableEq

/-- `resp.Stream`: the ordered list of entries. -/
structure RStream where
  values : List StreamEntry
  deriving DecidableEq

/-- Result of fallible Python code caught as `ValueError` by callers
(the payload of the error is the exception message). -/
inductive PyRes (α : Type)
  | ok (a : α)
  | error (msg : String)
  deriving DecidableEq

/-- Python `>=` on `StreamID` (`@dataclass(order=True)` compares the
field tuple lexicographically). -/
def sidGe (a b : Int × Int) : Bool :=
  b.1 < a.1 || (a.1 = b.1 && b.2 ≤ a.2)

/-- Strict lexicographic order on stream IDs (Python `<` on the
dataclass field tuples). -/
def sidLt (a b : Int × Int) : Prop :=
  a.1 < b.1 ∨ (a.1 = b.1 ∧ a.2 < b.2)

instance (a b : Int × Int) : Decidable (sidLt a b) :=
  inferInstanceAs (Decidable (_ ∨ _))

/-- `Stream._resolve_id`, called when the given ID has no sequence
number: `if ms == 0` use 1; `elif` the stream is empty use 0; `elif`
the top entry has the same `ms` use `top.seq + 1`; else 0. -/
def resolveId (st : RStream) (ms : Int) : Int × Int :=
  if ms = 0 then (ms, 1)
  else if st.values = [] then (ms, 0)
  else
    match st.values.getLast? with
    | some last => if last.id.1 = ms then (ms, last.id.2 + 1) else (ms, 0)
    | none => (ms, 0)

/-- The resolved ID used by `Stream.append`: the given `(ms, seq)` when
a sequence number was supplied, else `_resolve_id`. -/
def resolvedOf (st : RStream) (given : Int × Option Int) : Int × Int :=
  match given.2 with
  | some sq => (given.1, sq)
  | none => resolveId st given.1

/-- The body of `Stream.append` after ID parsing: resolve the ID,
reject `(0,0)`, reject an ID not above the top entry, else append. -/
def streamAppendId (st : RStream) (given : Int × Option Int)
    (fields : List (String × String)) : PyRes RStream :=
  let r := resolvedOf st given
  if r = ((0 : Int), (0 : Int)) then
    .error "The ID specified in XADD must be greater than 0-0"
  else
    match st.values.getLast? with
    | some last =>
      if sidGe last.id r then
        .error "The ID specified in XADD is equal or smaller than the target stream top item"
      else .ok ⟨st.values ++ [⟨r, fields⟩]⟩
    | none => .ok ⟨st.values ++ [⟨r, fields⟩]⟩

/-- Index of the first `'-'` split: `s.split("-", maxsplit=1)` giving
two parts, `none` when `'-'` does not occur (in which case the Python
tuple unpacking in `StreamID.from_str` raises `ValueError`). -/
def splitFirstDash : List Char → Option (List Char × List Char)
  | [] => none
  | c :: cs =>
    if c = '-' then some ([], cs)
    else (splitFirstDash cs).map (fun p => (c :: p.1, p.2))

/-- `StreamID.from_str`: `"*"` takes the current wall-clock
milliseconds (passed in as `nowMs`); otherwise split at the first
`'-'` (no `'-'` at all raises `ValueError`, modelled as `.error`),
parse `ms`, and parse the sequence part unless it is `"*"`.  The
`ValueError` message texts of `int()`/unpacking are abbreviated. -/
def fromStr (nowMs : Int) (s : String) : PyRes (Int × Option Int) :=
  if s = "*" then .ok (nowMs, none)
  else
    match splitFirstDash s.data with
    | none => .error "not enough values to unpack (expected 2, got 1)"
    | some (m, rest) =>
      match pyInt (pyStrip m) with
      | none => .error "invalid literal for int() with base 10"
      | some ms =>
        if rest = ['*'] then .ok (ms, none)
        else
          match pyInt (pyStrip rest) with
          | none => .error "invalid literal for int() with base 10"
          | some sq => .ok (ms, some sq)

/-- `Stream.append`: parse the textual ID specification, then append
with the resolution and validation of `streamAppendId`. -/
def streamAppend (nowMs : Int) (st : RStream) (idStr : String)
    (fields : List (String × String)) : PyRes RStream :=
  match fromStr nowMs idStr with
  | .error e => .error e
  | .ok given => streamAppendId st given fields

/-- `StreamID.__str__`: `f"{ms}-{seq}"`. -/
def idToString (i : Int × Int) : String :=
  toString i.1 ++ "-" ++ toString i.2

/-! ## Keyspace and replies (`server.Server`) -/

/-- A keyspace value: Python `str | list[str] | resp.Stream`. -/
inductive Val
  | str (s : String)
  | list (l : List String)
  | stream (st : RStream)
  deriving DecidableEq

/-- The keyspace `self.store`: an insertion-ordered dict from keys to
values. -/
abbrev Store := List (String × Val)

/-- `self.store.get(key)` / `key in self.store`. -/
def storeGet (st : Store) (k : String) : Option Val :=
  match st with
  | [] => none
  | (k', v) :: rest => if k' = k then some v else storeGet rest k

/-- `self.store[key] = value`: overwrite in place, else append. -/
def storeSet : Store → String → Val → Store
  | [], k, v => [(k, v)]
  | (k', v') :: rest, k, v =>
    if k' = k then (k, v) :: rest else (k', v') :: storeSet rest k v

/-- Python truthiness of a keyspace value: non-empty string /
non-empty list / stream with `__len__() > 0`. -/
def pyTruthy : Val → Bool
  | .str s => !(s = "")
  | .list l => !(l = [])
  | .stream st => !(st.values = [])

/-- Python `len()` of a keyspace value (`str` length, list length,
`Stream.__len__`). -/
def pyLen : Val → Nat
  | .str s => s.length
  | .list l => l.length
  | .stream st => st.values.length

/-- A typed reply (`resp.RedisValue`).  `bulk` wraps the Python object
handed to `BulkString(...)`; `arrStr` is an `Array` whose elements are
Python strings (encoded as bulk strings). -/
inductive RedisVal
  | simple (s : String)
  | err (m : String)
  | int (n : Int)
  | bulkNull
  | bulk (v : Val)
  | arrNull
  | arrStr (l : List String)
  deriving DecidableEq

/-- Outcome of `Server.handle_command`: a reply, an uncaught Python
exception, or a branch outside the scope of this development
(BLPOP's real-time polling loop, XRANGE, XREAD). -/
inductive Outcome
  | reply (v : RedisVal)
  | pyCrash (e : PyErr)
  | unmodelled
  deriving DecidableEq

/-- The option loop of the SET branch (`for i, opt in
enumerate(options)`), which runs only after the value has been
stored.  A valid PX starts a `threading.Timer` whose later deletion is
asynchronous and not part of this sequential step. -/
def setOptions : List String → Outcome
  | [] => .reply (.simple "OK")
  | opt :: rest =>
    if strUpper opt = "PX" then
      match rest with
      | [] => .reply (.err "SET cmd: expected millis value for px option")
      | ttl :: _ =>
        match pyIntStr ttl with
        | none => .reply (.err "SET cmd: PX option must be an integer")
        | some _ => setOptions rest
    else setOptions rest

/-- Python slice `li[a : b]` for the non-negative bounds reached in
the LRANGE branch. -/
def pySliceNN (li : List String) (a b : Int) : List String :=
  (li.drop a.toNat).take (b - a).toNat

/-- The bounds arithmetic of the LRANGE branch applied to the list
`li` stored under the key. -/
def lrangeList (li : List String) (start0 end0 : Int) : List String :=
  let n : Int := li.length
  let s1 : Int := if start0 < 0 then (if -n ≤ start0 then n + start0 else 0) else start0
  let e1 : Int := min (if 0 ≤ end0 then end0 else n + end0) (n - 1)
  if n ≤ s1 ∨ e1 < s1 then [] else pySliceNN li s1 (e1 + 1)

/-- `zip(values[::2], values[1::2])`: consecutive pairs, the odd
trailing element (if any) dropped. -/
def zipPairs : List String → List (String × String)
  | k :: v :: rest => (k, v) :: zipPairs rest
  | _ => []

/-- Python dict insertion: overwrite the value at an existing key in
place, else append. -/
def pyDictInsert : List (String × String) → String → String → List (String × String)
  | [], k, v => [(k, v)]
  | (k', v') :: rest, k, v =>
    if k' = k then (k, v) :: rest else (k', v') :: pyDictInsert rest k v

/-- `dict(zip(values[::2], values[1::2]))`. -/
def pyDict (ps : List (String × String)) : List (String × String) :=
  ps.foldl (fun acc p => pyDictInsert acc p.1 p.2) []

/-- `Server.handle_command`.  `nowMs` models `time.time() * 1000`
(used only by the `XADD <key> * ...` form).  Branches whose behaviour
no claim depends on (BLPOP's wall-clock polling loop, XRANGE, XREAD)
yield `.unmodelled`. -/
def handleCommand (nowMs : Int) (store : Store) (cmd : Command) : Outcome × Store :=
  if cmd.name = "PING" then (.reply (.simple "PONG"), store)
  else if cmd.name = "ECHO" then
    match cmd.args with
    | [a] =>
      if a = "" then (.reply (.err "ECHO cmd: wrong number of arguments"), store)
      else (.reply (.bulk (.str a)), store)
    | _ => (.reply (.err "ECHO cmd: wrong number of arguments"), store)
  else if cmd.name = "SET" then
    match cmd.args with
    | key :: value :: options =>
      (setOptions options, storeSet store key (.str value))
    | _ => (.reply (.err "SET cmd: expected key and value"), store)
  else if cmd.name = "GET" then
    match cmd.args with
    | [key] =>
      match storeGet store key with
      | some v => if pyTruthy v then (.reply (.bulk v), store) else (.reply .bulkNull, store)
      | none => (.reply .bulkNull, store)
    | _ => (.reply (.err "GET cmd: expected key"), store)
  else if cmd.name = "RPUSH" then
    match cmd.args with
    | key :: v0 :: vs =>
      let store1 := if (storeGet store key).isNone then storeSet store key (.list []) else store
      match storeGet store1 key with
      | some (.list l) =>
        let l' := l ++ (v0 :: vs)
        (.reply (.int l'.length), storeSet store1 key (.list l'))
      | _ => (.pyCrash (.assertionFailed "RPUSH cmd: expected a list"), store1)
    | _ => (.reply (.err "RPUSH cmd: expected key and value"), store)
  else if cmd.name = "LRANGE" then
    match cmd.args with
    | [key, sStr, eStr] =>
      match pyIntStr sStr, pyIntStr eStr with
      | some si, some ei =>
        match storeGet store key with
        | none => (.reply (.arrStr []), store)
        | some (.list li) => (.reply (.arrStr (lrangeList li si ei)), store)
        | some _ => (.pyCrash (.assertionFailed "LRANGE cmd: expected a list"), store)
      | _, _ => (.reply (.err "LRANGE cmd: expected integer for start, end"), store)
    | _ => (.reply (.err "LRANGE cmd: expected key, start, end"), store)
  else if cmd.name = "LPUSH" then
    match cmd.args with
    | key :: v0 :: vs =>
      let store1 := if (storeGet store key).isNone then storeSet store key (.list []) else store
      match storeGet store1 key with
      | some (.list l) =>
        let l' := (v0 :: vs).foldl (fun acc v => v :: acc) l
        (.reply (.int l'.length), storeSet store1 key (.list l'))
      | _ => (.pyCrash (.assertionFailed "LPUSH cmd: expected a list"), store1)
    | _ => (.reply (.err "LPUSH cmd: expected key and value"), store)
  else if cmd.name = "LLEN" then
    match cmd.args with
    | [key] =>
      match storeGet store key with
      | some v => (.reply (.int (pyLen v)), store)
      | none => (.reply (.int 0), store)
    | _ => (.reply (.err "LLEN cmd: expected key"), store)
  else if cmd.name = "LPOP" then
    match cmd.args with
    | [] => (.reply (.err "LPOP cmd: expected key"), store)
    | key :: restArgs =>
      match storeGet store key with
      | none =>
        -- `return resp.NULL_BULK`: `NULL_BULK` is not defined in app/resp.py
        (.pyCrash (.attributeError "NULL_BULK"), store)
      | some (.list li) =>
        match li with
        | [] =>
          -- `return resp.NULL_BULK`: `NULL_BULK` is not defined in app/resp.py
          (.pyCrash (.attributeError "NULL_BULK"), store)
        | h :: t =>
          match restArgs with
          | [] => (.reply (.bulk (.str h)), storeSet store key (.list t))
          | countStr :: _ =>
            match pyIntStr countStr with
            | none => (.reply (.err "LPOP cmd: expected integer for count"), store)
            | some c =>
              let li' := h :: t
              let c' : Int := if c ≤ (li'.length : Int) then c else (li'.length : Int)
              let k := c'.toNat
              (.reply (.arrStr (li'.take k)), storeSet store key (.list (li'.drop k)))
      | some _ => (.pyCrash (.assertionFailed "LPOP cmd: expected a list"), store)
  else if cmd.name = "BLPOP" then (.unmodelled, store)
  else if cmd.name = "TYPE" then
    match cmd.args with
    | [key] =>
      match storeGet store key with
      | none => (.reply (.simple "none"), store)
      | some (.stream _) => (.reply (.simple "stream"), store)
      | some _ => (.reply (.simple "string"), store)
    | _ => (.reply (.err "TYPE cmd: expected key"), store)
  else if cmd.name = "XADD" then
    if cmd.args.length ≤ 2 then (.reply (.err "XADD cmd: expected key, id"), store)
    else
      match cmd.args with
      | key :: idStr :: values =>
        match storeGet store key with
        | none =>
          let store1 := storeSet store key (.stream ⟨[]⟩)
          xaddOnStream nowMs store1 key ⟨[]⟩ idStr values
        | some (.stream st) => xaddOnStream nowMs store key st idStr values
        | some _ =>
          (.reply (.err "XADD cmd: WRONGTYPE Operation against a key holding the wrong kind of value"), store)
      | _ => (.reply (.err "XADD cmd: expected key, id"), store)
  else if cmd.name = "XRANGE" then (.unmodelled, store)
  else if cmd.name = "XREAD" then (.unmodelled, store)
  else (.reply (.err ("unknown command " ++ cmd.name)), store)
where
  /-- The XADD branch after the key's stream is in the store: check
  the field-count parity, then `Stream.append`, catching its
  `ValueError` as a `SimpleError` reply. -/
  xaddOnStream (nowMs : Int) (store1 : Store) (key : String) (st : RStream)
      (idStr : String) (values : List String) : Outcome × Store :=
    if values.length % 2 ≠ 0 then
      (.reply (.err "XADD cmd: no value given for key"), store1)
    else
      match streamAppend nowMs st idStr (pyDict (zipPairs values)) with
      | .error m => (.reply (.err m), store1)
      | .ok st' =>
        let lastId := match st'.values.getLast? with
          | some e => idToString e.id
          | none => ""
        (.reply (.bulk (.str lastId)), storeSet store1 key (.stream st'))

/-- One iteration of `Server.handle_connection`: parse one command
from the input; a parse `ValueError` is answered with `-ERR` and the
loop continues; `ConnectionResetError` breaks the loop (socket
closed); any other exception — from the parser or from
`handle_command`, which is called outside the `try` — propagates and
kills the worker thread (socket not closed). -/
inductive StepResult
  | replyContinue (r : RedisVal) (store' : Store) (rest : List Char)
  | errContinue (msg : String)
  | closed
  | abnormal (e : PyErr) (store' : Store)
  | notModelled
  deriving DecidableEq

/-- One pass of the `handle_connection` loop over the given input
bytes and keyspace. -/
def connStep (nowMs : Int) (store : Store) (input : List Char) : StepResult :=
  match parseCommand input with
  | .protoErr m => .errContinue m
  | .connReset => .closed
  | .crash e => .abnormal e store
  | .ok cmd rest =>
    match handleCommand nowMs store cmd with
    | (.reply r, store') => .replyContinue r store' rest
    | (.pyCrash e, store') => .abnormal e store'
    | (.unmodelled, _) => .notModelled

/-- Strict monotonicity of a stream's entry IDs. -/
def streamSorted (st : RStream) : Prop :=
  st.values.Chain' (fun x y => sidLt x.id y.id)

instance (st : RStream) : Decidable (streamSorted st) :=
  inferInstanceAs (Decidable (List.Chain' _ st.values))

/-- A stream built by a sequence of `XADD` appends starting from the
empty stream; a rejected append leaves the stream unchanged (the
dispatcher catches the `ValueError` and replies with an error). -/
def applyXadds (ops : List (Int × String × List (String × String))) : RStream :=
  ops.foldl
    (fun st op =>
      match streamAppend op.1 st op.2.1 op.2.2 with
      | .ok st' => st'
      | .error _ => st)
    ⟨[]⟩

/-! ## Spec-side definitions (for refinement comparisons) -/

/-- Modelled from the spec: the claimed LRANGE start normalization
`start' = max(0, n + start) if start < 0 else start`. -/
def lrangeStartSpec (n start : Int) : Int :=
  if start < 0 then max 0 (n + start) else start

/-- Modelled from the spec: the claimed LRANGE end normalization
`end' = min(n - 1, end) if end ≥ 0 else min(n - 1, n + end)`. -/
def lrangeEndSpec (n e : Int) : Int :=
  if 0 ≤ e then min (n - 1) e else min (n - 1) (n + e)

/-- The mathematical inclusive slice `[a, b]` of a list (elements at
indices `a..b`). -/
def incSlice (li : List String) (a b : Int) : List String :=
  (li.drop a.toNat).take (b - a + 1).toNat

/-- Modelled from the claim's auto-sequence rule order: "if a top
entry exists with the same ms, use top.seq + 1; otherwise, if ms == 0,
use 1; otherwise use 0". -/
def resolveSeqClaimOrder (st : RStream) (ms : Int) : Int × Int :=
  match st.values.getLast? with
  | some last =>
    if last.id.1 = ms then (ms, last.id.2 + 1)
    else if ms = 0 then (ms, 1) else (ms, 0)
  | none => if ms = 0 then (ms, 1) else (ms, 0)

/-- The amended auto-sequence rule order actually implemented:
"if ms == 0, use 1; otherwise, if a top entry exists with the same ms,
use top.seq + 1; otherwise use 0". -/
def resolveSeqAmended (st : RStream) (ms : Int) : Int × Int :=
  if ms = 0 then (ms, 1)
  else
    match st.values.getLast? with
    | some last => if last.id.1 = ms then (ms, last.id.2 + 1) else (ms, 0)
    | none => (ms, 0)

/-- A payload survives `Command.parse`'s line-based read unchanged:
no `'\n'` byte, and no leading or trailing Python whitespace. -/
def cleanArg (s : String) : Bool :=
  s.data.all (fun c => !(c = '\n')) &&
  (match s.data.head? with | none => true | some c => !pyWs c) &&
  (match s.data.getLast? with | none => true | some c => !pyWs c)

/-! ## Decimal rendering and parsing lemmas -/

theorem digitVal_digitChar (d : Nat) (h : d < 10) :
    digitVal (Nat.digitChar d) = some d := by
  revert h
  revert d
  decide

theorem isDigit_digitChar (d : Nat) (h : d < 10) :
    (Nat.digitChar d).isDigit = true := by
  revert h
  revert d
  decide

theorem digitsValAux_append (l t : List Char) (acc v : Nat)
    (h : digitsValAux l acc = some v) :
    digitsValAux (l ++ t) acc = digitsValAux t v := by
  induction l generalizing acc with
  | nil =>
    simp only [digitsValAux, Option.some.injEq] at h
    subst h
    rfl
  | cons c cs ih =>
    simp only [digitsValAux] at h ⊢
    cases hd : digitVal c with
    | none => rw [hd] at h; exact absurd h (by simp)
    | some d => rw [hd] at h; exact ih _ h

theorem natDigitsRec_ne_nil (n : Nat) : natDigitsRec n ≠ [] := by
  rw [natDigitsRec]
  split
  · simp
  · simp

theorem digitsValAux_natDigitsRec (n : Nat) : ∀ acc : Nat,
    digitsValAux (natDigitsRec n) acc =
      some (acc * 10 ^ (natDigitsRec n).length + n) := by
  induction n using Nat.strong_induction_on with
  | _ n ih =>
    intro acc
    by_cases h : n < 10
    · rw [natDigitsRec, dif_pos h]
      simp only [digitsValAux, digitVal_digitChar n h, List.length_cons,
        List.length_nil, pow_one, pow_zero, Option.some.injEq]
      omega
    · rw [natDigitsRec, dif_neg h]
      have hlt : n / 10 < n := Nat.div_lt_self (by omega) (by omega)
      have h1 := ih (n / 10) hlt acc
      have h2 := digitsValAux_append (natDigitsRec (n / 10)) [Nat.digitChar (n % 10)]
        acc _ h1
      rw [h2]
      simp only [digitsValAux, digitVal_digitChar (n % 10) (by omega),
        List.length_append, List.length_cons, List.length_nil]
      have hdm : 10 * (n / 10) + n % 10 = n := Nat.div_add_mod n 10
      have hp : 10 ^ ((natDigitsRec (n / 10)).length + 1) =
          10 ^ (natDigitsRec (n / 10)).length * 10 := pow_succ 10 _
      congr 1
      rw [hp]
      ring_nf
      omega

theorem digitsVal_natDigitsRec (n : Nat) :
    digitsVal (natDigitsRec n) = some n := by
  have hne := natDigitsRec_ne_nil n
  have hv := digitsValAux_natDigitsRec n 0
  cases hl : natDigitsRec n with
  | nil => exact absurd hl hne
  | cons c cs =>
    rw [hl] at hv
    simpa [digitsVal] using hv

theorem natDigitsCore_eq_rec (fuel : Nat) : ∀ (n : Nat) (ds : List Char),
    n < fuel → natDigitsCore fuel n ds = natDigitsRec n ++ ds := by
  induction fuel with
  | zero => intro n ds h; omega
  | succ fuel ih =>
    intro n ds h
    simp only [natDigitsCore]
    by_cases h0 : n / 10 = 0
    · rw [if_pos h0]
      have hn : n < 10 := by omega
      rw [natDigitsRec, dif_pos hn]
      have : n % 10 = n := by omega
      rw [this]
      rfl
    · rw [if_neg h0]
      have hge : ¬ n < 10 := by omega
      have hlt : n / 10 < n := Nat.div_lt_self (by omega) (by omega)
      have hrec : natDigitsRec n = natDigitsRec (n / 10) ++ [Nat.digitChar (n % 10)] := by
        rw [natDigitsRec]
        rw [dif_neg hge]
      rw [ih (n / 10) _ (by omega), hrec]
      simp

theorem natDigits_eq_rec (n : Nat) : natDigits n = natDigitsRec n := by
  rw [natDigits, natDigitsCore_eq_rec (n + 1) n [] (by omega), List.append_nil]

theorem natDigits_all_digit (n : Nat) :
    ∀ c ∈ natDigits n, c.isDigit = true := by
  rw [natDigits_eq_rec]
  induction n using Nat.strong_induction_on with
  | _ n ih =>
    intro c hc
    rw [natDigitsRec] at hc
    split at hc
    · simp only [List.mem_singleton] at hc
      subst hc
      exact isDigit_digitChar n (by omega)
    · rw [List.mem_append] at hc
      rcases hc with hc | hc
      · exact ih (n / 10) (Nat.div_lt_self (by omega) (by omega)) c hc
      · simp only [List.mem_singleton] at hc
        subst hc
        exact isDigit_digitChar (n % 10) (by omega)

theorem digit_not_ws (c : Char) (h : c.isDigit = true) : pyWs c = false := by
  have h6 : c ≠ ' ' ∧ c ≠ '\t' ∧ c ≠ '\n' ∧ c ≠ '\r' ∧ c ≠ '\x0b' ∧ c ≠ '\x0c' := by
    refine ⟨?_, ?_, ?_, ?_, ?_, ?_⟩ <;> (intro he; subst he; exact absurd h (by decide))
  unfold pyWs
  simp [h6.1, h6.2.1, h6.2.2.1, h6.2.2.2.1, h6.2.2.2.2.1, h6.2.2.2.2.2]

theorem digit_ne_dash (c : Char) (h : c.isDigit = true) : c ≠ '-' := by
  intro he; subst he; exact absurd h (by decide)

theorem digit_ne_plus (c : Char) (h : c.isDigit = true) : c ≠ '+' := by
  intro he; subst he; exact absurd h (by decide)

theorem digit_ne_nl (c : Char) (h : c.isDigit = true) : c ≠ '\n' := by
  intro he; subst he; exact absurd h (by decide)

theorem pyInt_natDigits (k : Nat) : pyInt (natDigits k) = some (k : Int) := by
  have hall := natDigits_all_digit k
  have hval : digitsVal (natDigits k) = some k := by
    rw [natDigits_eq_rec]; exact digitsVal_natDigitsRec k
  cases hl : natDigits k with
  | nil => rw [natDigits_eq_rec] at hl; exact absurd hl (natDigitsRec_ne_nil k)
  | cons c cs =>
    have hc : c.isDigit = true := hall c (by rw [hl]; exact List.mem_cons_self c cs)
    rw [hl] at hval
    simp only [pyInt]
    rw [if_neg (digit_ne_dash c hc), if_neg (digit_ne_plus c hc), hval]
    rfl

/-! ## Reader / strip lemmas -/

theorem dropWhile_head_false (p : Char → Bool) (l : List Char)
    (h : ∀ c, l.head? = some c → p c = false) : l.dropWhile p = l := by
  cases l with
  | nil => rfl
  | cons c cs =>
    rw [List.dropWhile_cons, h c rfl]
    simp

theorem pyStrip_sandwich (s : List Char)
    (hh : ∀ c, s.head? = some c → pyWs c = false)
    (hl : ∀ c, s.getLast? = some c → pyWs c = false) :
    pyStrip (s ++ ['\r', '\n']) = s := by
  cases s with
  | nil => rfl
  | cons c cs =>
    unfold pyStrip
    rw [dropWhile_head_false pyWs ((c :: cs) ++ ['\r', '\n'])
      (by intro x hx; simp only [List.cons_append, List.head?_cons,
        Option.some.injEq] at hx; subst hx; exact hh c rfl)]
    rw [show ((c :: cs) ++ ['\r', '\n']).reverse = '\n' :: '\r' :: (c :: cs).reverse from by simp]
    rw [List.dropWhile_cons, if_pos (show pyWs '\n' = true from by decide)]
    rw [List.dropWhile_cons, if_pos (show pyWs '\r' = true from by decide)]
    rw [dropWhile_head_false pyWs (c :: cs).reverse
      (by intro x hx; rw [List.head?_reverse] at hx; exact hl x hx)]
    simp

theorem splitLine_no_nl (s rest : List Char) (h : ∀ c ∈ s, c ≠ '\n') :
    splitLine (s ++ '\r' :: '\n' :: rest) = (s ++ ['\r', '\n'], rest) := by
  induction s with
  | nil => rfl
  | cons c cs ih =>
    have hc : c ≠ '\n' := h c (List.mem_cons_self c cs)
    have ih' := ih (fun x hx => h x (List.mem_cons_of_mem c hx))
    simp only [List.cons_append, splitLine, if_neg hc]
    simp only [List.append_eq]
    rw [ih']

theorem cleanArg_props (s : String) (h : cleanArg s = true) :
    (∀ c ∈ s.data, c ≠ '\n') ∧
    (∀ c, s.data.head? = some c → pyWs c = false) ∧
    (∀ c, s.data.getLast? = some c → pyWs c = false) := by
  unfold cleanArg at h
  simp only [Bool.and_eq_true, List.all_eq_true, Bool.not_eq_true'] at h
  obtain ⟨⟨h1, h2⟩, h3⟩ := h
  refine ⟨?_, ?_, ?_⟩
  · intro c hc heq
    have := h1 c hc
    subst heq
    simp at this
  · intro c hc
    rw [hc] at h2
    simpa using h2
  · intro c hc
    rw [hc] at h3
    simpa using h3

theorem natDigits_line_lemmas (k : Nat) (rest : List Char) :
    splitLine (natDigits k ++ '\r' :: '\n' :: rest) = (natDigits k ++ ['\r', '\n'], rest) ∧
    pyStrip (natDigits k ++ ['\r', '\n']) = natDigits k := by
  have hall := natDigits_all_digit k
  constructor
  · exact splitLine_no_nl _ rest (fun c hc => digit_ne_nl c (hall c hc))
  · exact pyStrip_sandwich _
      (fun c hc => digit_not_ws c (hall c (List.mem_of_mem_head? hc)))
      (fun c hc => digit_not_ws c (hall c (List.mem_of_mem_getLast? hc)))

theorem natDigits_ne_nil (k : Nat) : natDigits k ≠ [] := by
  rw [natDigits_eq_rec]; exact natDigitsRec_ne_nil k

theorem parseElems_encodeBulk (n : Nat) (s : String) (rest : List Char)
    (acc : List (List Char)) (hclean : cleanArg s = true) :
    parseElems (n + 1) (encodeBulk s ++ rest) acc = parseElems n rest (s.data :: acc) := by
  obtain ⟨hnl, hh, hl⟩ := cleanArg_props s hclean
  have hshape : encodeBulk s ++ rest =
      '$' :: (natDigits s.length ++ '\r' :: '\n' :: (s.data ++ '\r' :: '\n' :: rest)) := by
    unfold encodeBulk
    simp
  rw [hshape]
  obtain ⟨hsl, hst⟩ := natDigits_line_lemmas s.length (s.data ++ '\r' :: '\n' :: rest)
  simp only [parseElems, if_true]
  rw [hsl]
  dsimp only
  rw [if_neg (by simp)]
  rw [hst, pyInt_natDigits]
  dsimp only
  rw [splitLine_no_nl s.data rest hnl]
  dsimp only
  rw [if_neg (by simp)]
  rw [pyStrip_sandwich s.data hh hl]
  have hlen : ((s.data.length : Int)) = ((s.length : Int)) := rfl
  rw [if_pos hlen]

theorem parseElems_encodeAll (xs : List String) (rest : List Char)
    (acc : List (List Char)) (h : ∀ s ∈ xs, cleanArg s = true) :
    parseElems xs.length ((xs.map encodeBulk).flatten ++ rest) acc =
      .ok (acc.reverse ++ xs.map String.data) rest := by
  induction xs generalizing acc with
  | nil => simp [parseElems]
  | cons x xs ih =>
    have hx : cleanArg x = true := h x (List.mem_cons_self x xs)
    have hxs : ∀ s ∈ xs, cleanArg s = true := fun s hs => h s (List.mem_cons_of_mem x hs)
    simp only [List.map_cons, List.flatten_cons, List.length_cons, List.append_assoc]
    rw [parseElems_encodeBulk xs.length x _ acc hx]
    rw [ih (x.data :: acc) hxs]
    simp

theorem String_mk_data (s : String) : String.mk s.data = s := rfl

theorem map_mk_data (args : List String) :
    List.map (String.mk ∘ String.data) args = args := by
  induction args with
  | nil => rfl
  | cons a as iha =>
    simp only [List.map_cons, iha]
    rfl

theorem parseCommand_encodeArray (name : String) (args : List String)
    (h : ∀ s ∈ name :: args, cleanArg s = true) :
    parseCommand (encodeArray (name :: args)) = .ok ⟨strUpper name, args⟩ [] := by
  have hshape : encodeArray (name :: args) =
      '*' :: (natDigits (name :: args).length ++ '\r' :: '\n' ::
        (((name :: args).map encodeBulk).flatten ++ [])) := by
    unfold encodeArray
    simp
  rw [hshape]
  obtain ⟨hsl, hst⟩ := natDigits_line_lemmas (name :: args).length
    (((name :: args).map encodeBulk).flatten ++ [])
  simp only [parseCommand, if_true]
  rw [hsl]
  dsimp only
  rw [if_neg (by simp)]
  rw [hst, pyInt_natDigits]
  dsimp only
  rw [Int.toNat_natCast]
  rw [parseElems_encodeAll (name :: args) [] [] h]
  dsimp only
  simp only [List.map_cons, List.nil_append, List.reverse_nil, List.map_map]
  rw [map_mk_data]


/-- C10: the frame `*0\r\n` (an array of zero elements) makes
`Command.parse` hit `args[0]` out of bounds: it returns no command
and raises no protocol `ValueError` but an `IndexError`, which the
connection loop does not catch, so the worker terminates abnormally. -/
theorem C10_empty_frame_crashes :
    parseCommand ("*0\r\n".data) = .crash .indexError ∧
    ∀ (now : Int) (st : Store), connStep now st ("*0\r\n".data) = .abnormal .indexError st := by
  have h : parseCommand ("*0\r\n".data) = .crash .indexError := by decide
  refine ⟨h, fun now st => ?_⟩
  unfold connStep
  rw [h]

/-- C4 counterexample: the well-formed frame `*1\r\n$2\r\n A\r\n`
(payload `" A"` of declared length 2, a legal payload per the wire
format) is not decoded: `Command.parse` reads the payload line and
strips it, so the length `assert` fails; in particular
`encode_array(parse_command(F)) = F` cannot hold. -/
theorem C4_counterexample :
    parseCommand (encodeArray [" A"]) = .crash (.assertionFailed "Command.parse length") ∧
    ∀ cmd rest, parseCommand (encodeArray [" A"]) ≠ .ok cmd rest := by
  have h : parseCommand (encodeArray [" A"]) =
      .crash (.assertionFailed "Command.parse length") := by decide
  exact ⟨h, fun cmd rest he => by rw [h] at he; exact ParseOutcome.noConfusion he⟩

/-- C4 amended: `Command.parse` reads each payload with
`readline().strip()` rather than reading exactly L bytes.  For every
well-formed frame whose payloads contain no newline byte and no
leading or trailing whitespace, the parser consumes exactly the frame
and re-encoding reproduces it up to uppercasing of the command name;
payloads outside this class (for example with a leading space) abort
with an assertion failure. -/
theorem C4_framed_decode_roundtrip (name : String) (args : List String)
    (h : ∀ s ∈ name :: args, cleanArg s = true) :
    parseCommand (encodeArray (name :: args)) = .ok ⟨strUpper name, args⟩ [] ∧
    (∀ cmd rest, parseCommand (encodeArray (name :: args)) = .ok cmd rest →
      encodeArray (cmd.name :: cmd.args) = encodeArray (strUpper name :: args)) := by
  have h1 := parseCommand_encodeArray name args h
  refine ⟨h1, fun cmd rest he => ?_⟩
  rw [h1] at he
  cases he
  rfl

theorem C4_framed_decode_roundtrip_witness :
    (∀ s ∈ ["EcHo", "hi"], cleanArg s = true) ∧
    parseCommand (encodeArray ["EcHo", "hi"]) = .ok ⟨"ECHO", ["hi"]⟩ [] := by
  refine ⟨by decide, ?_⟩
  have h := (C4_framed_decode_roundtrip "EcHo" ["hi"] (by decide)).1
  have hup : strUpper "EcHo" = "ECHO" := by decide
  rw [hup] at h
  exact h

/-- C1 counterexample: `SET k v PX abc` answers an error but has
stored `k -> v`, and `XADD s 1-1 f1` (odd field count) answers an
error but has created an empty stream under `s`: the keyspace after
the call differs from the keyspace before. -/
theorem C1_counterexample :
    handleCommand 0 [] ⟨"SET", ["k", "v", "PX", "abc"]⟩ =
      (.reply (.err "SET cmd: PX option must be an integer"), [("k", Val.str "v")]) ∧
    handleCommand 0 [] ⟨"XADD", ["s", "1-1", "f1"]⟩ =
      (.reply (.err "XADD cmd: no value given for key"), [("s", Val.stream ⟨[]⟩)]) ∧
    [("k", Val.str "v")] ≠ ([] : Store) ∧ [("s", Val.stream ⟨[]⟩)] ≠ ([] : Store) := by
  decide

/-- C1 amended: arity failures checked before the first store write
(SET with fewer than two arguments, XADD with at most two arguments)
yield an error without mutating the keyspace, but SET stores the
value before validating PX, so `SET k v PX <non-integer>` returns an
error with the value stored, and XADD creates an empty stream under
an absent key before validating the field count, so `XADD k id f1`
returns an error with the empty stream created. -/
theorem C1_validation_mutation (st : Store) (k v px s idStr f : String)
    (hpx : pyIntStr px = none) (hs : storeGet st s = none) :
    handleCommand 0 st ⟨"SET", [k, v, "PX", px]⟩ =
      (.reply (.err "SET cmd: PX option must be an integer"), storeSet st k (.str v)) ∧
    handleCommand 0 st ⟨"XADD", [s, idStr, f]⟩ =
      (.reply (.err "XADD cmd: no value given for key"), storeSet st s (.stream ⟨[]⟩)) ∧
    handleCommand 0 st ⟨"SET", [k]⟩ = (.reply (.err "SET cmd: expected key and value"), st) ∧
    handleCommand 0 st ⟨"XADD", [s, idStr]⟩ = (.reply (.err "XADD cmd: expected key, id"), st) := by
  have hPX : strUpper "PX" = "PX" := by decide
  refine ⟨?_, ?_, ?_, ?_⟩
  · simp [handleCommand, setOptions, hpx, hPX]
  · simp [handleCommand, hs, handleCommand.xaddOnStream]
  · simp [handleCommand]
  · simp [handleCommand]

theorem C1_validation_mutation_witness :
    (pyIntStr "abc" = none ∧ storeGet [] "s" = none) ∧
    handleCommand 0 [] ⟨"SET", ["k", "v", "PX", "abc"]⟩ =
      (.reply (.err "SET cmd: PX option must be an integer"), storeSet [] "k" (.str "v")) := by
  exact ⟨⟨by decide, by decide⟩,
    (C1_validation_mutation [] "k" "v" "abc" "s" "1-1" "f" (by decide) (by decide)).1⟩

/-- C2 counterexample: with `k` holding a string, the single frame
`RPUSH k x` drives the connection worker into an uncaught
`AssertionError` from `handle_command` (called outside any `try`),
terminating the connection — not an `-ERR` reply. -/
theorem C2_counterexample :
    connStep 0 [("k", Val.str "v")] (encodeArray ["RPUSH", "k", "x"]) =
      .abnormal (.assertionFailed "RPUSH cmd: expected a list") [("k", Val.str "v")] ∧
    handleCommand 0 [("k", Val.str "v")] ⟨"RPUSH", ["k", "x"]⟩ =
      (.pyCrash (.assertionFailed "RPUSH cmd: expected a list"), [("k", Val.str "v")]) := by
  decide

/-- C2 amended: only errors explicitly handled inside a command
branch become `-ERR` replies (for example XADD's WRONGTYPE check),
and parse-level `ValueError`s are answered with `-ERR` without
closing the connection; but the wrong-type `assert`s of RPUSH and
LPUSH raise uncaught `AssertionError`s that are not converted at the
dispatcher boundary and terminate the connection. -/
theorem C2_error_propagation (now : Int) (st : Store) (k x id f v s : String) (vs : List String)
    (h : storeGet st k = some (.str s)) :
    handleCommand now st ⟨"RPUSH", k :: x :: vs⟩ =
      (.pyCrash (.assertionFailed "RPUSH cmd: expected a list"), st) ∧
    handleCommand now st ⟨"LPUSH", k :: x :: vs⟩ =
      (.pyCrash (.assertionFailed "LPUSH cmd: expected a list"), st) ∧
    handleCommand now st ⟨"XADD", [k, id, f, v]⟩ =
      (.reply (.err "XADD cmd: WRONGTYPE Operation against a key holding the wrong kind of value"), st) ∧
    (∀ input cmd rest e st2, parseCommand input = .ok cmd rest →
      handleCommand now st cmd = (.pyCrash e, st2) → connStep now st input = .abnormal e st2) ∧
    (∀ input m, parseCommand input = .protoErr m → connStep now st input = .errContinue m) := by
  refine ⟨?_, ?_, ?_, ?_, ?_⟩
  · simp [handleCommand, h]
  · simp [handleCommand, h]
  · simp [handleCommand, h]
  · intro input cmd rest e st2 hp hc
    unfold connStep
    rw [hp]
    dsimp only
    rw [hc]
  · intro input m hp
    unfold connStep
    rw [hp]

theorem C2_error_propagation_witness :
    storeGet [("k", Val.str "v")] "k" = some (.str "v") ∧
    handleCommand 0 [("k", Val.str "v")] ⟨"RPUSH", ["k", "x"]⟩ =
      (.pyCrash (.assertionFailed "RPUSH cmd: expected a list"), [("k", Val.str "v")]) := by
  exact ⟨by decide,
    (C2_error_propagation 0 [("k", Val.str "v")] "k" "x" "i" "f" "w" "v" [] (by decide)).1⟩

/-- C5: evaluating the code at the failing inputs: LPOP on an absent
key, or with a count on an empty list, evaluates `resp.NULL_BULK`,
which is not defined in `app/resp.py`, raising `AttributeError`
instead of replying with a null bulk string; on a non-empty list the
pop paths behave as specified. -/
theorem C5_lpop_null_bulk_missing :
    handleCommand 0 [] ⟨"LPOP", ["k"]⟩ = (.pyCrash (.attributeError "NULL_BULK"), []) ∧
    handleCommand 0 [("k", Val.list [])] ⟨"LPOP", ["k", "2"]⟩ =
      (.pyCrash (.attributeError "NULL_BULK"), [("k", Val.list [])]) ∧
    handleCommand 0 [("k", Val.list ["a", "b", "c"])] ⟨"LPOP", ["k"]⟩ =
      (.reply (.bulk (.str "a")), [("k", Val.list ["b", "c"])]) ∧
    handleCommand 0 [("k", Val.list ["a", "b", "c"])] ⟨"LPOP", ["k", "2"]⟩ =
      (.reply (.arrStr ["a", "b"]), [("k", Val.list ["c"])]) := by
  decide

/-- C6 counterexample: with `k` present and holding the empty string,
`GET k` replies with the null bulk string (the code tests Python
truthiness, `if value:`), not `BulkString("")`, refuting both halves
of the claim at `v = ""`. -/
theorem C6_counterexample :
    handleCommand 0 [("k", Val.str "")] ⟨"GET", ["k"]⟩ =
      (.reply .bulkNull, [("k", Val.str "")]) ∧
    RedisVal.bulkNull ≠ RedisVal.bulk (.str "") := by
  decide

/-- C6 amended: for a present key holding a string value, GET replies
`BulkString(v)` when `v` is non-empty and the null bulk string when
`v` is the empty string; GET on an absent key replies the null bulk
string. -/
theorem C6_get_semantics (now : Int) (st : Store) (k v : String)
    (h : storeGet st k = some (.str v)) :
    handleCommand now st ⟨"GET", [k]⟩ =
      (.reply (if v = "" then .bulkNull else .bulk (.str v)), st) ∧
    (∀ k2, storeGet st k2 = none →
      handleCommand now st ⟨"GET", [k2]⟩ = (.reply .bulkNull, st)) := by
  constructor
  · by_cases hv : v = ""
    · subst hv
      simp [handleCommand, h, pyTruthy]
    · simp [handleCommand, h, pyTruthy, hv]
  · intro k2 h2
    simp [handleCommand, h2]

theorem C6_get_semantics_witness :
    storeGet [("k", Val.str "x")] "k" = some (.str "x") ∧
    handleCommand 0 [("k", Val.str "x")] ⟨"GET", ["k"]⟩ =
      (.reply (if "x" = "" then .bulkNull else .bulk (.str "x")), [("k", Val.str "x")]) := by
  exact ⟨by decide, (C6_get_semantics 0 [("k", Val.str "x")] "k" "x" (by decide)).1⟩

/-- C3 counterexample: on a stream whose top entry is `(0, 1)`,
`XADD 0-*` resolves the sequence to `(0, 1)` (the `ms == 0` rule is
applied before the same-`ms` top-entry rule) and the append is
rejected, not `(0, 2)` and accepted as the claim states. -/
theorem C3_counterexample :
    resolvedOf ⟨[⟨(0, 1), []⟩]⟩ (0, none) = (0, 1) ∧
    streamAppend 0 ⟨[⟨(0, 1), []⟩]⟩ "0-*" [] =
      .error "The ID specified in XADD is equal or smaller than the target stream top item" ∧
    handleCommand 0 [("s", Val.stream ⟨[⟨(0, 1), []⟩]⟩)] ⟨"XADD", ["s", "0-*", "f", "v"]⟩ =
      (.reply (.err "The ID specified in XADD is equal or smaller than the target stream top item"),
        [("s", Val.stream ⟨[⟨(0, 1), []⟩]⟩)]) := by
  decide

/-- C3 amended: the auto-sequence rules are applied in the order: if
`ms == 0` use 1 (regardless of the top entry); otherwise if a top
entry exists with the same `ms` use `top.seq + 1`; otherwise use 0.
Consequently on a stream with top `(0, s)`, `s ≥ 1`, `XADD 0-*`
resolves to `(0, 1)` and is rejected.  The bare `"<ms>"` form is not
auto-filled: its parse raises `ValueError` (tuple unpacking). -/
theorem C3_auto_sequence (st : RStream) (ms s : Int) (fds gfds : List (String × String))
    (hs : 1 ≤ s) :
    resolveId st ms = resolveSeqAmended st ms ∧
    resolvedOf ⟨[⟨(0, s), fds⟩]⟩ (0, none) = (0, 1) ∧
    streamAppendId ⟨[⟨(0, s), fds⟩]⟩ (0, none) gfds =
      .error "The ID specified in XADD is equal or smaller than the target stream top item" ∧
    fromStr 0 "7" = .error "not enough values to unpack (expected 2, got 1)" := by
  refine ⟨?_, ?_, ?_, by decide⟩
  · obtain ⟨vals⟩ := st
    unfold resolveId resolveSeqAmended
    cases vals <;> simp
  · simp [resolvedOf, resolveId]
  · simp [streamAppendId, resolvedOf, resolveId, sidGe, hs]

theorem C3_auto_sequence_witness :
    (1 : Int) ≤ 1 ∧
    streamAppendId ⟨[⟨(0, 1), []⟩]⟩ (0, none) [] =
      .error "The ID specified in XADD is equal or smaller than the target stream top item" := by
  exact ⟨by decide, (C3_auto_sequence ⟨[]⟩ 0 1 [] [] (by decide)).2.2.1⟩

theorem sidGe_false_iff (a b : Int × Int) : sidGe a b = false ↔ sidLt a b := by
  unfold sidGe sidLt
  rcases a with ⟨a1, a2⟩
  rcases b with ⟨b1, b2⟩
  simp only [Bool.or_eq_false_iff, Bool.and_eq_false_iff, decide_eq_false_iff_not, not_lt, not_le]
  constructor
  · intro hf
    rcases hf with ⟨h1, h2 | h2⟩ <;> omega
  · intro hlt
    rcases hlt with h1 | ⟨h1, h2⟩
    · constructor
      · omega
      · left
        omega
    · constructor
      · omega
      · right
        omega

theorem streamAppendId_ok_spec (st : RStream) (g : Int × Option Int)
    (fds : List (String × String)) (st' : RStream)
    (h : streamAppendId st g fds = .ok st') :
    st'.values = st.values ++ [⟨resolvedOf st g, fds⟩] ∧
    (∀ last, st.values.getLast? = some last → sidLt last.id (resolvedOf st g)) := by
  simp only [streamAppendId] at h
  by_cases h0 : resolvedOf st g = ((0 : Int), (0 : Int))
  · rw [if_pos h0] at h
    exact PyRes.noConfusion h
  · rw [if_neg h0] at h
    cases hl : st.values.getLast? with
    | none =>
      rw [hl] at h
      cases h
      refine ⟨rfl, ?_⟩
      intro l hls
      exact Option.noConfusion hls
    | some last =>
      rw [hl] at h
      dsimp only at h
      by_cases hg : sidGe last.id (resolvedOf st g) = true
      · rw [if_pos hg] at h
        exact PyRes.noConfusion h
      · rw [if_neg hg] at h
        cases h
        refine ⟨rfl, ?_⟩
        intro l hls
        cases hls
        have hgf : sidGe last.id (resolvedOf st g) = false := by
          simpa using hg
        exact (sidGe_false_iff last.id (resolvedOf st g)).mp hgf

theorem streamAppendId_error_iff (st : RStream) (g : Int × Option Int)
    (fds : List (String × String)) :
    (∃ m, streamAppendId st g fds = .error m) ↔
      (resolvedOf st g = ((0 : Int), (0 : Int)) ∨
        ∃ last, st.values.getLast? = some last ∧ ¬ sidLt last.id (resolvedOf st g)) := by
  simp only [streamAppendId]
  by_cases h0 : resolvedOf st g = ((0 : Int), (0 : Int))
  · rw [if_pos h0]
    simp [h0]
  · rw [if_neg h0]
    cases hl : st.values.getLast? with
    | none =>
      dsimp only
      constructor
      · rintro ⟨m, hm⟩
        exact PyRes.noConfusion hm
      · rintro (hor | ⟨l, hls, _⟩)
        · exact absurd hor h0
        · exact Option.noConfusion hls
    | some last =>
      dsimp only
      by_cases hg : sidGe last.id (resolvedOf st g) = true
      · rw [if_pos hg]
        simp only [PyRes.error.injEq, exists_eq', true_iff]
        refine Or.inr ⟨last, rfl, ?_⟩
        intro hlt
        rw [(sidGe_false_iff last.id (resolvedOf st g)).mpr hlt] at hg
        exact Bool.noConfusion hg
      · rw [if_neg hg]
        constructor
        · intro hex
          rcases hex with ⟨m, hm⟩
          exact PyRes.noConfusion hm
        · intro hor
          rcases hor with hor | ⟨l, hls, hnl⟩
          · exact absurd hor h0
          · cases hls
            have hgf : sidGe last.id (resolvedOf st g) = false := by
              simpa using hg
            exact absurd ((sidGe_false_iff last.id (resolvedOf st g)).mp hgf) hnl

theorem streamAppendId_sorted (st : RStream) (g : Int × Option Int)
    (fds : List (String × String)) (st' : RStream) (hs : streamSorted st)
    (h : streamAppendId st g fds = .ok st') : streamSorted st' := by
  obtain ⟨hv, hlast⟩ := streamAppendId_ok_spec st g fds st' h
  unfold streamSorted at hs ⊢
  rw [hv, List.chain'_append]
  refine ⟨hs, List.chain'_singleton _, ?_⟩
  intro x hx y hy
  simp only [List.head?_cons, Option.mem_def, Option.some.injEq] at hy
  subst hy
  exact hlast x hx

theorem streamAppend_ok_exists (now : Int) (st : RStream) (idStr : String)
    (fds : List (String × String)) (st' : RStream)
    (h : streamAppend now st idStr fds = .ok st') :
    ∃ g, fromStr now idStr = .ok g ∧ streamAppendId st g fds = .ok st' := by
  unfold streamAppend at h
  cases hf : fromStr now idStr with
  | error m => rw [hf] at h; exact PyRes.noConfusion h
  | ok g => rw [hf] at h; exact ⟨g, rfl, h⟩

theorem applyXadds_sorted (ops : List (Int × String × List (String × String))) :
    streamSorted (applyXadds ops) := by
  suffices h : ∀ (l : List (Int × String × List (String × String))) (st : RStream),
      streamSorted st →
      streamSorted (l.foldl (fun st op =>
        match streamAppend op.1 st op.2.1 op.2.2 with
        | .ok st' => st'
        | .error _ => st) st) by
    exact h ops ⟨[]⟩ (by unfold streamSorted; exact List.chain'_nil)
  intro l
  induction l with
  | nil =>
    intro st hs
    simpa using hs
  | cons op l ih =>
    intro st hs
    simp only [List.foldl_cons]
    apply ih
    cases hap : streamAppend op.1 st op.2.1 op.2.2 with
    | ok st' =>
      obtain ⟨g, _, hid⟩ := streamAppend_ok_exists op.1 st op.2.1 op.2.2 st' hap
      simpa using streamAppendId_sorted st g op.2.2 st' hs hid
    | error m =>
      simpa using hs

/-- C7 counterexample: `XADD s 0--1` parses as ID `(0, -1)`, which is
not strictly greater than `(0, 0)`, yet on an empty stream the append
is accepted (only equality with `(0,0)` is rejected), refuting the
claim's rejection condition. -/
theorem C7_counterexample :
    resolvedOf ⟨[]⟩ (0, some (-1)) = (0, -1) ∧
    ¬ sidLt ((0 : Int), (0 : Int)) ((0 : Int), (-1 : Int)) ∧
    streamAppendId ⟨[]⟩ (0, some (-1)) [] = .ok ⟨[⟨(0, -1), []⟩]⟩ ∧
    fromStr 0 "0--1" = .ok (0, some (-1)) ∧
    handleCommand 0 [] ⟨"XADD", ["s", "0--1", "f", "v"]⟩ =
      (.reply (.bulk (.str "0--1")), [("s", Val.stream ⟨[⟨(0, -1), [("f", "v")]⟩]⟩)]) := by
  decide

/-- C7 amended: every stream reachable by a sequence of XADD appends
has strictly increasing entry IDs; a successful append extends the
entries with the resolved ID; and an append is rejected with an error
exactly when the resolved ID equals `(0, 0)` or is not strictly
greater than the top entry's ID. -/
theorem C7_stream_monotonic (ops : List (Int × String × List (String × String)))
    (st : RStream) (g : Int × Option Int) (fds : List (String × String))
    (h : streamSorted st) :
    streamSorted (applyXadds ops) ∧
    (∀ st', streamAppendId st g fds = .ok st' →
      streamSorted st' ∧ st'.values = st.values ++ [⟨resolvedOf st g, fds⟩]) ∧
    ((∃ m, streamAppendId st g fds = .error m) ↔
      (resolvedOf st g = ((0 : Int), (0 : Int)) ∨
        ∃ last, st.values.getLast? = some last ∧ ¬ sidLt last.id (resolvedOf st g))) := by
  refine ⟨applyXadds_sorted ops, fun st' h' => ?_, streamAppendId_error_iff st g fds⟩
  exact ⟨streamAppendId_sorted st g fds st' h h', (streamAppendId_ok_spec st g fds st' h').1⟩

theorem C7_stream_monotonic_witness :
    streamSorted (⟨[⟨(1, 1), []⟩]⟩ : RStream) ∧
    streamSorted (applyXadds [(0, "1-1", []), (0, "1-1", []), (0, "2-0", [])]) := by
  have hsorted : streamSorted (⟨[⟨(1, 1), []⟩]⟩ : RStream) := by
    unfold streamSorted
    exact List.chain'_singleton _
  exact ⟨hsorted,
    (C7_stream_monotonic [(0, "1-1", []), (0, "1-1", []), (0, "2-0", [])]
      ⟨[⟨(1, 1), []⟩]⟩ (1, some 1) [] hsorted).1⟩

/-- C8: LRANGE on a list of length n returns exactly the mathematical
inclusive slice `[start', end']` with `start' = max(0, n + start)` for
negative start (else start) and `end' = min(n - 1, end)` for
non-negative end (else `min(n - 1, n + end)`), and returns the empty
array precisely when `start' ≥ n` or `start' > end'`. -/
theorem C8_lrange (li : List String) (start e : Int) :
    lrangeList li start e =
      incSlice li (lrangeStartSpec li.length start) (lrangeEndSpec li.length e) ∧
    (lrangeList li start e = [] ↔
      ((li.length : Int) ≤ lrangeStartSpec li.length start ∨
        lrangeEndSpec li.length e < lrangeStartSpec li.length start)) := by
  have hs : (if start < 0 then
        (if -(li.length : Int) ≤ start then (li.length : Int) + start else 0) else start) =
      lrangeStartSpec li.length start := by
    unfold lrangeStartSpec
    rcases lt_or_ge start 0 with h | h
    · rw [if_pos h, if_pos h]
      rcases le_or_lt (-(li.length : Int)) start with h2 | h2
      · rw [if_pos h2, max_eq_right (by omega)]
      · rw [if_neg (by omega), max_eq_left (by omega)]
    · rw [if_neg (by omega), if_neg (by omega)]
  have he : min (if 0 ≤ e then e else (li.length : Int) + e) ((li.length : Int) - 1) =
      lrangeEndSpec li.length e := by
    unfold lrangeEndSpec
    rcases le_or_lt 0 e with h | h
    · rw [if_pos h, if_pos h, min_comm]
    · rw [if_neg (by omega), if_neg (by omega), min_comm]
  have hs0 : 0 ≤ lrangeStartSpec li.length start := by
    unfold lrangeStartSpec
    split_ifs with h
    · exact le_max_left 0 _
    · omega
  simp only [lrangeList]
  rw [hs, he]
  constructor
  · split_ifs with hcond
    · unfold incSlice
      rcases hcond with hc | hc
      · rw [List.drop_eq_nil_of_le (by omega), List.take_nil]
      · rw [show ((lrangeEndSpec (↑li.length) e - lrangeStartSpec (↑li.length) start + 1).toNat) = 0
          from by omega, List.take_zero]
    · unfold pySliceNN incSlice
      rw [show (lrangeEndSpec (↑li.length) e + 1 - lrangeStartSpec (↑li.length) start) =
        (lrangeEndSpec (↑li.length) e - lrangeStartSpec (↑li.length) start + 1) from by ring]
  · constructor
    · intro hemp
      by_cases hcond : ((li.length : Int) ≤ lrangeStartSpec li.length start ∨
          lrangeEndSpec li.length e < lrangeStartSpec li.length start)
      · exact hcond
      · rw [if_neg hcond] at hemp
        have hlen := congrArg List.length hemp
        simp only [pySliceNN, List.length_take, List.length_drop, List.length_nil] at hlen
        push_neg at hcond
        omega
    · intro hcond
      rw [if_pos hcond]

end RedisModel
